import Mathlib

/-!
Shallow embedding of `src/Scraper.py` (the scraper pipeline of this
repository) and proofs about it.

Modelling conventions:

* A Python `dict` with string keys is modelled as an association list
  (`PyDict`) whose insertion (`dictSet`) replaces the binding of an existing
  key in place and appends a fresh key at the end, exactly the observable
  behaviour of `d[k] = v` on a Python dict.
* `Scraper.load` (Scraper.py lines 30-38) is `load`; its `assert
  type(data) == list` guard is modelled with the dynamic-value type `PyVal`.
  The loop body mutates `self.data` one element at a time, so a `KeyError`
  raised mid-loop leaves the earlier insertions in place; `loadRun` returns
  the raised exception (if any) together with the store as mutated so far.
* `Scraper.dump` (lines 40-51) is `dump`, over an explicit file-system
  state; the serialized payload `json.dumps(self.data)` is modelled as the
  JSON tree `storeJson`.
* `BuzzScraper.scrape` (lines 77-105) and `ClickHoleScraper.scrape`
  (lines 138-163) share one body shape; it is embedded once as `scrapeRun`,
  instantiated as `buzzScrape` and `clickHoleScrape` with the literal
  publisher names, native-id field names and tag lists of the source.
  `find_data`/`soup` fetch and parse HTML through the external collaborators
  (requests, BeautifulSoup); per the repository spec they are pluggable
  extraction strategies, abstracted as `source : Nat → List RawRecord`
  mapping a page number to that page's raw records.
* The source text writes `page_limit` for `self.page_limit` on lines 86 and
  144 and drops a comma on line 105 (`self.load(documents, 'store_key' tags)`);
  these are transcription slips (the sibling scraper, line 163, and the class
  docstrings fix the intent) and are embedded as the attribute read and the
  three-argument call.
* The document-count `while` loop (lines 90-98, 148-156) is embedded as the
  fuel-indexed `docLoopFuel`: `none` means the loop has not finished within
  `fuel` iterations, so `(∀ fuel, ... = none)` states nontermination.
-/

abbrev PyDict (α : Type) := List (String × α)

abbrev RawRecord := PyDict String

abbrev Entry := PyDict String

abbrev Store := PyDict Entry

/-- Python exceptions that the embedded code can raise. -/
inductive PyError where
  | keyError (key : String)
  | assertionError (msg : String)
deriving DecidableEq, Repr

/-- Dynamically-typed Python value, as far as `Scraper.load`'s
`assert type(data) == list` can observe it. -/
inductive PyVal where
  | vlist (xs : List RawRecord)
  | vdict (d : PyDict String)
  | vstr (s : String)
  | vint (n : Int)
deriving DecidableEq, Repr

/-- `type(data) == list`. -/
def PyVal.isList : PyVal → Bool
  | .vlist _ => true
  | _ => false

/-- Python dict read `d[k]`: `none` models a `KeyError`. -/
def dictGet {α : Type} : PyDict α → String → Option α
  | [], _ => none
  | (k, v) :: rest, key => if k = key then some v else dictGet rest key

/-- Python dict write `d[key] = v`: replace the binding of an existing key in
place, append a fresh key at the end. -/
def dictSet {α : Type} : PyDict α → String → α → PyDict α
  | [], key, v => [(key, v)]
  | (k, w) :: rest, key, v =>
    if k = key then (key, v) :: rest else (k, w) :: dictSet rest key v

/-- The keys of a dict, in insertion order. -/
def akeys {α : Type} (d : PyDict α) : List String := d.map Prod.fst

/-- The dict comprehension of Scraper.py line 37,
`entry = dict of k to elem[k] for k in tags`, processed in tag order with the
first absent tag raising `KeyError`. -/
def projectAux (elem : RawRecord) : List String → Entry → Except PyError Entry
  | [], acc => .ok acc
  | t :: ts, acc =>
    match dictGet elem t with
    | none => .error (.keyError t)
    | some v => projectAux elem ts (dictSet acc t v)

def project (tags : List String) (elem : RawRecord) : Except PyError Entry :=
  projectAux elem tags []

/-- The loop of `Scraper.load` (lines 36-38): for each `elem`, build the
projected `entry` (line 37), then store it under `elem[key]` (line 38).
Mutation is per element, so on a `KeyError` the store as mutated so far is
kept and the exception is reported in the first component. -/
def loadRun (store : Store) : List RawRecord → String → List String →
    Option PyError × Store
  | [], _, _ => (none, store)
  | elem :: rest, key, tags =>
    match project tags elem with
    | .error e => (some e, store)
    | .ok entry =>
      match dictGet elem key with
      | none => (some (.keyError key), store)
      | some kv => loadRun (dictSet store kv entry) rest key tags

/-- `Scraper.load` (lines 30-38): assert the input is a list, then run the
insertion loop. -/
def load (store : Store) (data : PyVal) (key : String) (tags : List String) :
    Option PyError × Store :=
  match data with
  | .vlist xs => loadRun store xs key tags
  | _ => (some (.assertionError "Expecting list as input"), store)

/-- Tagging of one collected document (Scraper.py lines 100-102 and 158-160):
set `doc['publisher']`, then set `doc['store_key']` to the publisher name,
`"-"`, and the document's native id field, read back from the dict after the
publisher write, raising `KeyError` when the native id field is absent. -/
def tagDoc (publisher native : String) (doc : RawRecord) :
    Except PyError RawRecord :=
  let d1 := dictSet doc "publisher" publisher
  match dictGet d1 native with
  | none => .error (.keyError native)
  | some v => .ok (dictSet d1 "store_key" (publisher ++ "-" ++ v))

/-- The `for doc in documents` tagging loop: documents are tagged in order and
the first missing native id aborts the whole loop with its `KeyError`. -/
def tagDocs (publisher native : String) : List RawRecord →
    Except PyError (List RawRecord)
  | [] => .ok []
  | d :: ds =>
    match tagDoc publisher native d with
    | .error e => .error e
    | .ok d1 =>
      match tagDocs publisher native ds with
      | .error e => .error e
      | .ok ds1 => .ok (d1 :: ds1)

/-- Page-count mode (lines 86-89, 144-147): `for page in
range(1, self.page_limit + 1): documents += self.find_data(url)`. -/
def pageDocs (source : Nat → List RawRecord) (page_limit : Int) :
    List RawRecord :=
  (List.range' 1 page_limit.toNat).foldl (fun docs p => docs ++ source p) []

/-- Document-count mode (lines 90-98, 148-156): `while i < document_limit`
append one whole page per iteration and advance the page number.  `fuel`
bounds the number of loop iterations that may be observed; `none` means the
loop did not finish within `fuel` iterations. -/
def docLoopFuel (source : Nat → List RawRecord) (limit : Nat) :
    Nat → Nat → List RawRecord → Option (List RawRecord)
  | 0, _, docs => if docs.length < limit then none else some docs
  | fuel + 1, page, docs =>
    if docs.length < limit then
      docLoopFuel source limit fuel (page + 1) (docs ++ source page)
    else some docs

/-- Document accumulation of `scrape`: page-count mode when `page_limit` is
not the sentinel `-1`, otherwise the document-count loop from page 1. -/
def gatherDocs (page_limit : Int) (document_limit fuel : Nat)
    (source : Nat → List RawRecord) : Option (List RawRecord) :=
  if page_limit ≠ -1 then some (pageDocs source page_limit)
  else docLoopFuel source document_limit fuel 1 []

/-- The shared body of `BuzzScraper.scrape` (lines 77-105) and
`ClickHoleScraper.scrape` (lines 138-163): accumulate documents, tag each
with `publisher` and `store_key`, then `self.load(documents, 'store_key',
tags)`.  An exception during tagging aborts before `load` runs, leaving the
store untouched.  The outer `none` means the document-count loop did not
terminate within `fuel` iterations. -/
def scrapeRun (publisher native : String) (tags : List String)
    (page_limit : Int) (document_limit fuel : Nat)
    (source : Nat → List RawRecord) (store : Store) :
    Option (Option PyError × Store) :=
  match gatherDocs page_limit document_limit fuel source with
  | none => none
  | some documents =>
    match tagDocs publisher native documents with
    | .error e => some (some e, store)
    | .ok tagged => some (load store (.vlist tagged) "store_key" tags)

/-- `BuzzScraper.scrape` with its literal publisher, native id field
`'buzz-id'` (line 102) and tag list (line 104). -/
def buzzScrape (page_limit : Int) (document_limit fuel : Nat)
    (source : Nat → List RawRecord) (store : Store) :
    Option (Option PyError × Store) :=
  scrapeRun "BuzzFeed" "buzz-id" ["buzz_id", "name", "store_key", "publisher"]
    page_limit document_limit fuel source store

/-- `ClickHoleScraper.scrape` with its literal publisher, native id field
`'article_id'` (line 160) and tag list (line 162). -/
def clickHoleScrape (page_limit : Int) (document_limit fuel : Nat)
    (source : Nat → List RawRecord) (store : Store) :
    Option (Option PyError × Store) :=
  scrapeRun "ClickHole" "article_id"
    ["name", "publisher", "store_key", "article_id"]
    page_limit document_limit fuel source store

/-- JSON values, the image of `json.dumps` on the store. -/
inductive Json where
  | jstr (s : String)
  | jobj (fields : List (String × Json))

/-- `json.dumps(self.data)` (line 50): the store is one JSON object whose
top-level keys are the store keys and whose values are the projected field
maps. -/
def entryJson (e : Entry) : Json := .jobj (e.map fun kv => (kv.1, .jstr kv.2))

def storeJson (s : Store) : Json := .jobj (s.map fun kv => (kv.1, entryJson kv.2))

/-- Top-level keys of a JSON value (empty for a non-object). -/
def jsonTopKeys : Json → List String
  | .jobj fields => fields.map Prod.fst
  | _ => []

/-- File-system state as `Scraper.dump` observes it: a set of existing
directories and a mapping from file path to JSON content. -/
structure FileSystem where
  dirs : List String
  files : PyDict Json

/-- `Scraper.dump` (lines 40-51): `target = os.getcwd() + '/../data'`; create
the directory when `os.path.isdir` fails; write `json.dumps(self.data)` to
`os.path.join(target, filename)`, truncating any existing file. -/
def dump (fs : FileSystem) (cwd : String) (store : Store) (filename : String) :
    FileSystem :=
  let target := cwd ++ "/../data"
  let fs1 :=
    if target ∈ fs.dirs then fs else { fs with dirs := target :: fs.dirs }
  let output := target ++ "/" ++ filename
  { fs1 with files := dictSet fs1.files output (storeJson store) }

/-! Analysis definitions: decompositions of the `loadRun` loop used to state
and prove its properties. -/

/-- First defined alternative of two optional values. -/
def firstSome {α : Type} : Option α → Option α → Option α
  | some v, _ => some v
  | none, b => b

/-- Repeated dict insertion, the effect of the `load` loop on the store. -/
def foldIns (s : Store) (ps : List (String × Entry)) : Store :=
  ps.foldl (fun t p => dictSet t p.1 p.2) s

/-- The `(elem[key], entry)` pairs that the `load` loop inserts before its
first uncaught `KeyError` (all of them when every element projects). -/
def goodPairs (key : String) (tags : List String) :
    List RawRecord → List (String × Entry)
  | [] => []
  | elem :: rest =>
    match project tags elem with
    | .error _ => []
    | .ok entry =>
      match dictGet elem key with
      | none => []
      | some kv => (kv, entry) :: goodPairs key tags rest

/-- The exception (if any) that the `load` loop raises. -/
def loadErr (key : String) (tags : List String) :
    List RawRecord → Option PyError
  | [] => none
  | elem :: rest =>
    match project tags elem with
    | .error e => some e
    | .ok _ =>
      match dictGet elem key with
      | none => some (.keyError key)
      | some _ => loadErr key tags rest

/-- The value attached to the last occurrence of a key in a pair list. -/
def lastVal : List (String × Entry) → String → Option Entry
  | [], _ => none
  | p :: ps, k => firstSome (lastVal ps k) (if p.1 = k then some p.2 else none)

/-- The exhausted source of the repository spec's document-count example:
ten records per page for pages 1 to 3, then only empty pages. -/
def exhaustedSource : Nat → List RawRecord :=
  fun p => if p ≤ 3 then List.replicate 10 [("name", "x")] else []

/-- A source yielding five records on every page. -/
def fiveSource : Nat → List RawRecord :=
  fun _ => List.replicate 5 [("article_id", "a")]

/-! Basic dictionary lemmas. -/

theorem dictGet_dictSet_self {α : Type} (d : PyDict α) (k : String) (v : α) :
    dictGet (dictSet d k v) k = some v := by
  induction d with
  | nil => simp [dictSet, dictGet]
  | cons p rest ih =>
    obtain ⟨k0, w⟩ := p
    by_cases h : k0 = k
    · simp [dictSet, h, dictGet]
    · simp [dictSet, h, dictGet, ih]

theorem dictGet_dictSet_ne {α : Type} (d : PyDict α) (k k' : String) (v : α)
    (h : k' ≠ k) : dictGet (dictSet d k v) k' = dictGet d k' := by
  induction d with
  | nil => simp [dictSet, dictGet, Ne.symm h]
  | cons p rest ih =>
    obtain ⟨k0, w⟩ := p
    by_cases h0 : k0 = k
    · subst h0
      simp [dictSet, dictGet, Ne.symm h]
    · by_cases h1 : k0 = k'
      · subst h1
        simp [dictSet, h0, dictGet, h]
      · simp [dictSet, h0, dictGet, h1, ih]

theorem akeys_dictSet {α : Type} (d : PyDict α) (k : String) (v : α) :
    akeys (dictSet d k v) = if k ∈ akeys d then akeys d else akeys d ++ [k] := by
  induction d with
  | nil => simp [dictSet, akeys]
  | cons p rest ih =>
    obtain ⟨k0, w⟩ := p
    by_cases h : k0 = k
    · subst h
      simp [dictSet, akeys]
    · have hne : k ≠ k0 := Ne.symm h
      have hL : akeys (dictSet ((k0, w) :: rest) k v) =
          k0 :: akeys (dictSet rest k v) := by
        simp [dictSet, h, akeys]
      by_cases hm : k ∈ akeys rest
      · have hcond : k ∈ akeys ((k0, w) :: rest) := by
          rw [show akeys ((k0, w) :: rest) = k0 :: akeys rest from rfl]
          exact List.mem_cons_of_mem _ hm
        rw [if_pos hcond, hL, if_pos hm] at *
        rw [ih]
        rfl
      · have hcond : k ∉ akeys ((k0, w) :: rest) := by
          rw [show akeys ((k0, w) :: rest) = k0 :: akeys rest from rfl,
            List.mem_cons, not_or]
          exact ⟨hne, hm⟩
        rw [if_neg hcond, hL, if_neg hm] at *
        rw [ih]
        rfl

theorem mem_akeys_dictSet {α : Type} (d : PyDict α) (k k' : String) (v : α) :
    k' ∈ akeys (dictSet d k v) ↔ k' ∈ akeys d ∨ k' = k := by
  rw [akeys_dictSet]
  by_cases hm : k ∈ akeys d
  · simp only [hm, if_true]
    constructor
    · exact Or.inl
    · rintro (h | rfl)
      · exact h
      · exact hm
  · simp [hm]

theorem nodup_akeys_dictSet {α : Type} (d : PyDict α) (k : String) (v : α)
    (h : (akeys d).Nodup) : (akeys (dictSet d k v)).Nodup := by
  rw [akeys_dictSet]
  by_cases hm : k ∈ akeys d
  · simpa [hm] using h
  · rw [if_neg hm]
    simp [List.nodup_append, h, hm]

theorem length_le_length_dictSet {α : Type} (d : PyDict α) (k : String) (v : α) :
    d.length ≤ (dictSet d k v).length := by
  induction d with
  | nil => simp [dictSet]
  | cons p rest ih =>
    obtain ⟨k0, w⟩ := p
    by_cases h : k0 = k
    · simp [dictSet, h]
    · simpa [dictSet, h] using ih

theorem dictGet_eq_none_of_not_mem {α : Type} (d : PyDict α) (k : String)
    (h : k ∉ akeys d) : dictGet d k = none := by
  induction d with
  | nil => rfl
  | cons p rest ih =>
    obtain ⟨k0, w⟩ := p
    rw [show akeys ((k0, w) :: rest) = k0 :: akeys rest from rfl,
      List.mem_cons, not_or] at h
    obtain ⟨h1, h2⟩ := h
    simp [dictGet, Ne.symm h1, ih h2]

theorem pydict_ext {α : Type} (s : PyDict α) :
    ∀ t : PyDict α, akeys s = akeys t → (akeys s).Nodup →
      (∀ k, dictGet s k = dictGet t k) → s = t := by
  induction s with
  | nil =>
    intro t hk _ _
    cases t with
    | nil => rfl
    | cons q t' => exact absurd hk (by simp [akeys])
  | cons p s' ih =>
    intro t hk hd hg
    obtain ⟨k, v⟩ := p
    cases t with
    | nil => exact absurd hk (by simp [akeys])
    | cons q t' =>
      obtain ⟨k2, w⟩ := q
      rw [show akeys ((k, v) :: s') = k :: akeys s' from rfl,
        show akeys ((k2, w) :: t') = k2 :: akeys t' from rfl] at hk
      injection hk with hk1 hk2
      subst hk1
      have hv : v = w := by
        have h0 := hg k
        simpa [dictGet] using h0
      subst hv
      rw [show akeys ((k, v) :: s') = k :: akeys s' from rfl,
        List.nodup_cons] at hd
      obtain ⟨hd1, hd2⟩ := hd
      have ht' : s' = t' := by
        apply ih t' hk2 hd2
        intro k3
        by_cases h3 : k3 = k
        · subst h3
          rw [dictGet_eq_none_of_not_mem s' k3 hd1,
            dictGet_eq_none_of_not_mem t' k3 (by rw [← hk2]; exact hd1)]
        · have h0 := hg k3
          simpa [dictGet, Ne.symm h3] using h0
      rw [ht']

/-! Lemmas on `firstSome`, `foldIns`, `lastVal` and the `load` loop. -/

theorem firstSome_assoc {α : Type} (a b c : Option α) :
    firstSome (firstSome a b) c = firstSome a (firstSome b c) := by
  cases a <;> cases b <;> rfl

theorem firstSome_idem {α : Type} (a b : Option α) :
    firstSome a (firstSome a b) = firstSome a b := by
  cases a <;> rfl

theorem foldIns_cons (s : Store) (p : String × Entry) (ps : List (String × Entry)) :
    foldIns s (p :: ps) = foldIns (dictSet s p.1 p.2) ps := rfl

theorem foldIns_nil (s : Store) : foldIns s [] = s := rfl

theorem loadRun_eq (s : Store) (xs : List RawRecord) (key : String)
    (tags : List String) :
    loadRun s xs key tags = (loadErr key tags xs, foldIns s (goodPairs key tags xs)) := by
  induction xs generalizing s with
  | nil => rfl
  | cons elem rest ih =>
    cases hp : project tags elem with
    | error e => simp [loadRun, loadErr, goodPairs, hp, foldIns_nil]
    | ok entry =>
      cases hk : dictGet elem key with
      | none => simp [loadRun, loadErr, goodPairs, hp, hk, foldIns_nil]
      | some kv => simp [loadRun, loadErr, goodPairs, hp, hk, ih, foldIns_cons]

theorem dictGet_foldIns (ps : List (String × Entry)) :
    ∀ (s : Store) (k : String),
      dictGet (foldIns s ps) k = firstSome (lastVal ps k) (dictGet s k) := by
  induction ps with
  | nil => intro s k; rfl
  | cons p ps ih =>
    intro s k
    rw [foldIns_cons, ih, lastVal, firstSome_assoc]
    by_cases h : p.1 = k
    · subst h
      rw [if_pos rfl]
      have : firstSome (some p.2) (dictGet s p.1) = some p.2 := rfl
      rw [this, dictGet_dictSet_self]
    · rw [if_neg h]
      have : firstSome (none : Option Entry) (dictGet s k) = dictGet s k := rfl
      rw [this, dictGet_dictSet_ne s p.1 k p.2 (Ne.symm h)]

theorem mem_akeys_foldIns (ps : List (String × Entry)) :
    ∀ (s : Store) (k : String), k ∈ akeys s → k ∈ akeys (foldIns s ps) := by
  induction ps with
  | nil => intro s k h; exact h
  | cons p ps ih =>
    intro s k h
    rw [foldIns_cons]
    exact ih _ k ((mem_akeys_dictSet s p.1 k p.2).mpr (Or.inl h))

theorem fst_mem_akeys_foldIns (ps : List (String × Entry)) :
    ∀ (s : Store) (p : String × Entry), p ∈ ps → p.1 ∈ akeys (foldIns s ps) := by
  induction ps with
  | nil => intro s p h; cases h
  | cons q ps ih =>
    intro s p h
    rw [foldIns_cons]
    rcases List.mem_cons.mp h with h1 | h1
    · subst h1
      exact mem_akeys_foldIns ps _ p.1
        ((mem_akeys_dictSet s p.1 p.1 p.2).mpr (Or.inr rfl))
    · exact ih _ p h1

theorem akeys_foldIns_of_mem (ps : List (String × Entry)) :
    ∀ s : Store, (∀ p ∈ ps, p.1 ∈ akeys s) → akeys (foldIns s ps) = akeys s := by
  induction ps with
  | nil => intro s _; rfl
  | cons q ps ih =>
    intro s hmem
    rw [foldIns_cons]
    have hq : q.1 ∈ akeys s := hmem q (List.mem_cons_self q ps)
    have hks : akeys (dictSet s q.1 q.2) = akeys s := by
      rw [akeys_dictSet, if_pos hq]
    rw [ih _ ?_, hks]
    intro p hp
    rw [hks]
    exact hmem p (List.mem_cons_of_mem q hp)

theorem nodup_akeys_foldIns (ps : List (String × Entry)) :
    ∀ s : Store, (akeys s).Nodup → (akeys (foldIns s ps)).Nodup := by
  induction ps with
  | nil => intro s h; exact h
  | cons q ps ih =>
    intro s h
    rw [foldIns_cons]
    exact ih _ (nodup_akeys_dictSet s q.1 q.2 h)

theorem length_le_length_foldIns (ps : List (String × Entry)) :
    ∀ s : Store, s.length ≤ (foldIns s ps).length := by
  induction ps with
  | nil => intro s; exact le_refl _
  | cons q ps ih =>
    intro s
    rw [foldIns_cons]
    exact le_trans (length_le_length_dictSet s q.1 q.2) (ih _)

theorem foldIns_idem (ps : List (String × Entry)) (s : Store)
    (hnd : (akeys s).Nodup) : foldIns (foldIns s ps) ps = foldIns s ps := by
  apply pydict_ext
  · exact akeys_foldIns_of_mem ps _ (fun p hp => fst_mem_akeys_foldIns ps s p hp)
  · rw [akeys_foldIns_of_mem ps _ (fun p hp => fst_mem_akeys_foldIns ps s p hp)]
    exact nodup_akeys_foldIns ps s hnd
  · intro k
    rw [dictGet_foldIns, dictGet_foldIns, firstSome_idem]

/-! Lemmas on projection, provenance of stored entries, string keys, the
page-mode fold and the document-count loop. -/

theorem projectAux_keys (elem : RawRecord) (ts : List String) :
    ∀ (acc entry : Entry), projectAux elem ts acc = .ok entry →
      ∀ f, f ∈ akeys entry ↔ (f ∈ akeys acc ∨ f ∈ ts) := by
  induction ts with
  | nil =>
    intro acc entry h f
    cases h
    simp
  | cons t ts ih =>
    intro acc entry h f
    rw [projectAux] at h
    cases hg : dictGet elem t with
    | none => rw [hg] at h; cases h
    | some v =>
      rw [hg] at h
      rw [ih _ entry h f, mem_akeys_dictSet, List.mem_cons]
      tauto

theorem project_keys (tags : List String) (elem : RawRecord) (entry : Entry)
    (h : project tags elem = .ok entry) :
    ∀ f, f ∈ akeys entry ↔ f ∈ tags := by
  intro f
  rw [projectAux_keys elem tags [] entry h f]
  simp [akeys]

theorem mem_goodPairs (key : String) (tags : List String) :
    ∀ (xs : List RawRecord) (kv : String) (e : Entry),
      (kv, e) ∈ goodPairs key tags xs →
      ∃ elem, project tags elem = .ok e := by
  intro xs
  induction xs with
  | nil => intro kv e h; cases h
  | cons x rest ih =>
    intro kv e h
    rw [goodPairs] at h
    cases hp : project tags x with
    | error er => rw [hp] at h; cases h
    | ok entry =>
      rw [hp] at h
      cases hk : dictGet x key with
      | none => rw [hk] at h; cases h
      | some kv0 =>
        rw [hk] at h
        rcases List.mem_cons.mp h with h1 | h1
        · injection h1 with h2 h3
          subst h3
          exact ⟨x, hp⟩
        · exact ih kv e h1

theorem lastVal_mem (k : String) (e : Entry) :
    ∀ ps : List (String × Entry), lastVal ps k = some e → (k, e) ∈ ps := by
  intro ps
  induction ps with
  | nil => intro h; cases h
  | cons p ps ih =>
    intro h
    rw [lastVal] at h
    cases hl : lastVal ps k with
    | some e0 =>
      rw [hl] at h
      have he : e0 = e := by
        have : firstSome (some e0) (if p.1 = k then some p.2 else none) = some e0 := rfl
        rw [this] at h
        injection h
      subst he
      exact List.mem_cons_of_mem p (ih hl)
    | none =>
      rw [hl] at h
      have : firstSome (none : Option Entry) (if p.1 = k then some p.2 else none) =
          if p.1 = k then some p.2 else none := rfl
      rw [this] at h
      by_cases hpk : p.1 = k
      · rw [if_pos hpk] at h
        injection h with h2
        have : p = (k, e) := by
          obtain ⟨p1, p2⟩ := p
          simp at hpk h2
          rw [hpk, h2]
        rw [← this]
        exact List.mem_cons_self p ps
      · rw [if_neg hpk] at h
        cases h

theorem string_append_cancel_left (a b c : String) (h : a ++ b = a ++ c) :
    b = c := by
  apply String.ext
  have h2 := congrArg String.data h
  rw [String.data_append, String.data_append] at h2
  exact List.append_cancel_left h2

theorem foldl_append_eq_flatten (source : Nat → List RawRecord) (l : List Nat) :
    ∀ acc : List RawRecord,
      l.foldl (fun docs p => docs ++ source p) acc =
        acc ++ (l.map source).flatten := by
  induction l with
  | nil => intro acc; simp
  | cons p ps ih =>
    intro acc
    rw [List.foldl_cons, ih, List.map_cons, List.flatten_cons, List.append_assoc]

theorem exhausted_stuck (fuel : Nat) :
    ∀ (page : Nat) (docs : List RawRecord),
      (1 ≤ page ∧ page ≤ 4 ∧ docs.length = (page - 1) * 10) ∨
        (4 ≤ page ∧ docs.length = 30) →
      docLoopFuel exhaustedSource 50 fuel page docs = none := by
  induction fuel with
  | zero =>
    intro page docs h
    have hlen : docs.length < 50 := by
      rcases h with ⟨_, hp, hl⟩ | ⟨_, hl⟩ <;> omega
    simp [docLoopFuel, hlen]
  | succ f ih =>
    intro page docs h
    have hlen : docs.length < 50 := by
      rcases h with ⟨_, hp, hl⟩ | ⟨_, hl⟩ <;> omega
    rw [docLoopFuel, if_pos hlen]
    apply ih
    rcases h with ⟨hp1, hp4, hl⟩ | ⟨hp4, hl⟩
    · by_cases h3 : page ≤ 3
      · left
        refine ⟨by omega, by omega, ?_⟩
        have hsrc : exhaustedSource page = List.replicate 10 [("name", "x")] := by
          simp [exhaustedSource, h3]
        rw [hsrc, List.length_append, List.length_replicate, hl]
        omega
      · right
        have hp : page = 4 := by omega
        subst hp
        have hsrc : exhaustedSource 4 = [] := by simp [exhaustedSource]
        refine ⟨by omega, ?_⟩
        rw [hsrc, List.append_nil, hl]
    · right
      have hsrc : exhaustedSource page = [] := by
        simp only [exhaustedSource]
        rw [if_neg (by omega)]
      refine ⟨by omega, ?_⟩
      rw [hsrc, List.append_nil, hl]

/-! Claim theorems. -/

/-- C1: tagging a raw record that carries its native-id field assigns it
`store_key` equal to the publisher name, then `"-"`, then the native id
(conjuncts 1 and 2); the key is a function of the publisher and the native id
alone, hence deterministic, and equal keys under one publisher force equal
native ids, so the derivation is injective whenever native ids are unique
(conjunct 3, under hypothesis `hw`). -/
theorem tagDoc_store_key (publisher native v w : String) (doc : RawRecord)
    (hnp : native ≠ "publisher") (hv : dictGet doc native = some v)
    (hw : publisher ++ "-" ++ v = publisher ++ "-" ++ w) :
    tagDoc publisher native doc =
      .ok (dictSet (dictSet doc "publisher" publisher) "store_key"
        (publisher ++ "-" ++ v))
    ∧ dictGet (dictSet (dictSet doc "publisher" publisher) "store_key"
        (publisher ++ "-" ++ v)) "store_key" = some (publisher ++ "-" ++ v)
    ∧ v = w := by
  have h1 : dictGet (dictSet doc "publisher" publisher) native = some v := by
    rw [dictGet_dictSet_ne doc "publisher" native publisher hnp, hv]
  refine ⟨?_, ?_, ?_⟩
  · simp [tagDoc, h1]
  · exact dictGet_dictSet_self _ _ _
  · exact string_append_cancel_left (publisher ++ "-") v w hw

/-- Witness for C1 at a concrete BuzzFeed record. -/
theorem tagDoc_store_key_witness :
    tagDoc "BuzzFeed" "buzz-id" [("buzz-id", "7")] =
      .ok (dictSet (dictSet [("buzz-id", "7")] "publisher" "BuzzFeed")
        "store_key" ("BuzzFeed" ++ "-" ++ "7"))
    ∧ dictGet (dictSet (dictSet [("buzz-id", "7")] "publisher" "BuzzFeed")
        "store_key" ("BuzzFeed" ++ "-" ++ "7")) "store_key" =
        some ("BuzzFeed" ++ "-" ++ "7")
    ∧ "7" = "7" :=
  tagDoc_store_key "BuzzFeed" "buzz-id" "7" "7" [("buzz-id", "7")]
    (by decide) (by decide) rfl

/-- C2 (code bug): with `document_limit = 50` and the spec's exhausted source
(ten records per page on pages 1-3, whose 30 records are all the source has,
then only empty pages), the document-count loop of `scrape` never halts: no
iteration budget makes it return, because from page 4 on the accumulated
count stays at 30 < 50 while the loop keeps fetching further pages. -/
theorem docLoop_exhausted_diverges :
    (pageDocs exhaustedSource 3).length = 30
    ∧ exhaustedSource 4 = []
    ∧ ∀ fuel : Nat, docLoopFuel exhaustedSource 50 fuel 1 [] = none := by
  refine ⟨by decide, by decide, ?_⟩
  intro fuel
  apply exhausted_stuck fuel 1 []
  left
  exact ⟨le_refl 1, by omega, by simp⟩

/-- C3: when `page_limit` is any value other than the sentinel -1, `scrape`
gathers documents in page-count mode regardless of `document_limit` and of
the iteration budget: the result is the concatenation of the extraction
strategy's output on pages 1 through `page_limit` inclusive, one call per
page (conjunct 1); with `page_limit = 2` the accumulated records are the
page-1 records followed by the page-2 records, so a source yielding 5 records
per page gives exactly 10 (conjunct 2). -/
theorem gatherDocs_page_mode (page_limit : Int) (document_limit fuel : Nat)
    (source : Nat → List RawRecord) (hpl : page_limit ≠ -1) :
    gatherDocs page_limit document_limit fuel source =
      some (((List.range' 1 page_limit.toNat).map source).flatten)
    ∧ (pageDocs source 2).length = (source 1).length + (source 2).length := by
  constructor
  · rw [gatherDocs, if_pos hpl, pageDocs, foldl_append_eq_flatten]
    rfl
  · rw [pageDocs]
    show ((([] : List RawRecord) ++ source 1) ++ source 2).length =
      (source 1).length + (source 2).length
    simp

/-- Witness for C3: page-count mode, `page_limit = 2`, five records per page. -/
theorem gatherDocs_page_mode_witness :
    gatherDocs 2 1000 0 fiveSource =
      some (((List.range' 1 (2 : Int).toNat).map fiveSource).flatten)
    ∧ (pageDocs fiveSource 2).length =
        (fiveSource 1).length + (fiveSource 2).length :=
  gatherDocs_page_mode 2 1000 0 fiveSource (by decide)

/-- C7 (code bug): on a page holding a valid record followed by a record
missing the native-id field `'buzz-id'`, `BuzzScraper.scrape` raises a plain
`KeyError` (no `MissingFieldError` exists in the code) in the tagging loop,
before `load` runs, so no record at all is inserted: the valid sibling is
lost too and the store stays empty. -/
theorem buzz_missing_native_id :
    buzzScrape 1 1000 0
      (fun _ => [[("buzz-id", "1"), ("name", "good")], [("name", "bad")]]) [] =
      some (some (.keyError "buzz-id"), []) := by decide

/-- C9 (code bug): `scrape` returns no record count and no error list, and a
record-granular problem aborts the whole run: on a perfectly valid BuzzFeed
record the run raises `KeyError 'buzz_id'`, because the tag list of line 104
spells `buzz_id` while the records carry `buzz-id` (line 102), and the store
stays empty. -/
theorem buzz_raises_on_valid_record :
    buzzScrape 1 1000 0 (fun _ => [[("buzz-id", "7"), ("name", "ok")]]) [] =
      some (some (.keyError "buzz_id"), []) := by decide

/-- C4: store invariants across `load`. Inserting under an existing key
replaces the entry entirely — the stored value is exactly the new entry, no
merge (conjunct 1); with unique keys before, keys stay unique after a single
insert (conjunct 2) and after a whole `load` run (conjunct 3); no key is
ever removed (conjunct 4) and the store never shrinks (conjunct 5). -/
theorem store_invariants (s : Store) (xs : List RawRecord) (key : String)
    (tags : List String) (k : String) (v : Entry)
    (hnd : (akeys s).Nodup) :
    dictGet (dictSet s k v) k = some v
    ∧ (akeys (dictSet s k v)).Nodup
    ∧ (akeys (loadRun s xs key tags).2).Nodup
    ∧ akeys s ⊆ akeys (loadRun s xs key tags).2
    ∧ s.length ≤ (loadRun s xs key tags).2.length := by
  refine ⟨dictGet_dictSet_self s k v, nodup_akeys_dictSet s k v hnd, ?_, ?_, ?_⟩
  · rw [loadRun_eq]
    exact nodup_akeys_foldIns _ s hnd
  · rw [loadRun_eq]
    intro k0 hk0
    exact mem_akeys_foldIns _ s k0 hk0
  · rw [loadRun_eq]
    exact length_le_length_foldIns _ s

/-- Witness for C4 at a concrete store and input list. -/
theorem store_invariants_witness :
    dictGet (dictSet [("a", [("x", "y")])] "a" [("z", "w")]) "a" =
      some [("z", "w")]
    ∧ (akeys (dictSet [("a", [("x", "y")])] "a" [("z", "w")])).Nodup
    ∧ (akeys (loadRun [("a", [("x", "y")])]
        [[("store_key", "b"), ("name", "n")]] "store_key" ["name"]).2).Nodup
    ∧ akeys [("a", [("x", "y")])] ⊆ akeys (loadRun [("a", [("x", "y")])]
        [[("store_key", "b"), ("name", "n")]] "store_key" ["name"]).2
    ∧ ([("a", [("x", "y")])] : Store).length ≤ (loadRun [("a", [("x", "y")])]
        [[("store_key", "b"), ("name", "n")]] "store_key" ["name"]).2.length :=
  store_invariants [("a", [("x", "y")])]
    [[("store_key", "b"), ("name", "n")]] "store_key" ["name"] "a"
    [("z", "w")] (by decide)

theorem scrapeRun_eq (publisher native : String) (tags : List String)
    (page_limit : Int) (document_limit fuel : Nat)
    (source : Nat → List RawRecord) (store : Store) :
    scrapeRun publisher native tags page_limit document_limit fuel source
        store =
      match gatherDocs page_limit document_limit fuel source with
      | none => none
      | some documents =>
        match tagDocs publisher native documents with
        | .error e => some (some e, store)
        | .ok tagged =>
          some (loadErr "store_key" tags tagged,
            foldIns store (goodPairs "store_key" tags tagged)) := by
  rw [scrapeRun]
  cases gatherDocs page_limit document_limit fuel source with
  | none => rfl
  | some documents =>
    show (match tagDocs publisher native documents with
      | Except.error e => some ((some e : Option PyError), store)
      | Except.ok tagged =>
        some (load store (PyVal.vlist tagged) "store_key" tags)) =
      (match tagDocs publisher native documents with
      | Except.error e => some ((some e : Option PyError), store)
      | Except.ok tagged =>
        some (loadErr "store_key" tags tagged,
          foldIns store (goodPairs "store_key" tags tagged)))
    cases tagDocs publisher native documents with
    | error e => rfl
    | ok tagged =>
      show some (loadRun store tagged "store_key" tags) = _
      rw [loadRun_eq]

/-- C5: collect is idempotent against an unchanged source: when a `scrape`
run from the empty store finishes with outcome `e` and store `s1`, running
the same `scrape` again on `s1` finishes with the same outcome and leaves
the store at `s1` (last-write-wins on identical keys). -/
theorem scrape_idempotent (publisher native : String) (tags : List String)
    (page_limit : Int) (document_limit fuel : Nat)
    (source : Nat → List RawRecord) (e : Option PyError) (s1 : Store)
    (h : scrapeRun publisher native tags page_limit document_limit fuel
      source [] = some (e, s1)) :
    scrapeRun publisher native tags page_limit document_limit fuel source s1 =
      some (e, s1) := by
  rw [scrapeRun_eq] at h ⊢
  split at h
  · cases h
  · rename_i documents heq
    split at h
    · rename_i er heq2
      injection h with h1
      injection h1 with h2 h3
      subst h2
      subst h3
      simp [heq2]
    · rename_i tagged heq2
      injection h with h1
      injection h1 with h2 h3
      subst h2
      rw [← h3, foldIns_idem _ [] (by simp [akeys])]

/-- Witness for C5: a ClickHole run repeated on its own output store. -/
theorem scrape_idempotent_witness :
    scrapeRun "ClickHole" "article_id"
      ["name", "publisher", "store_key", "article_id"] 1 1000 0
      (fun _ => [[("name", "n"), ("article_id", "5")]])
      [("ClickHole-5",
        [("name", "n"), ("publisher", "ClickHole"),
         ("store_key", "ClickHole-5"), ("article_id", "5")])] =
      some (none,
        [("ClickHole-5",
          [("name", "n"), ("publisher", "ClickHole"),
           ("store_key", "ClickHole-5"), ("article_id", "5")])]) :=
  scrape_idempotent "ClickHole" "article_id"
    ["name", "publisher", "store_key", "article_id"] 1 1000 0
    (fun _ => [[("name", "n"), ("article_id", "5")]]) none
    [("ClickHole-5",
      [("name", "n"), ("publisher", "ClickHole"),
       ("store_key", "ClickHole-5"), ("article_id", "5")])] (by decide)

/-- C6: every entry held in the store after a `load` run has exactly the
fields named in the tag list — fields not in the tag list are dropped by the
projection and every tag is present — provided every entry already stored
before the run did too (trivially so for the empty store). -/
theorem load_entry_fields (s : Store) (xs : List RawRecord) (key : String)
    (tags : List String) (k f : String) (e : Entry)
    (hs : ∀ k0 e0, dictGet s k0 = some e0 → (f ∈ akeys e0 ↔ f ∈ tags))
    (he : dictGet (loadRun s xs key tags).2 k = some e) :
    f ∈ akeys e ↔ f ∈ tags := by
  rw [loadRun_eq] at he
  rw [show ((loadErr key tags xs, foldIns s (goodPairs key tags xs)) :
      Option PyError × Store).2 = foldIns s (goodPairs key tags xs) from rfl,
    dictGet_foldIns] at he
  cases hl : lastVal (goodPairs key tags xs) k with
  | some e1 =>
    rw [hl] at he
    have he1 : e1 = e := by
      have hr : firstSome (some e1) (dictGet s k) = some e1 := rfl
      rw [hr] at he
      injection he
    rw [← he1]
    obtain ⟨elem, hp⟩ :=
      mem_goodPairs key tags xs k e1 (lastVal_mem k e1 _ hl)
    exact project_keys tags elem e1 hp f
  | none =>
    rw [hl] at he
    have hr : firstSome (none : Option Entry) (dictGet s k) = dictGet s k := rfl
    rw [hr] at he
    exact hs k e he

/-- Witness for C6: tags `name` and `store_key` on a record that also carries
an `extra` field; the stored entry drops `extra`. -/
theorem load_entry_fields_witness :
    "extra" ∈ akeys [("name", "n"), ("store_key", "k1")] ↔
      "extra" ∈ ["name", "store_key"] :=
  load_entry_fields [] [[("name", "n"), ("store_key", "k1"), ("extra", "z")]]
    "store_key" ["name", "store_key"] "k1" "extra"
    [("name", "n"), ("store_key", "k1")]
    (by intro k0 e0 h0; simp [dictGet] at h0) (by decide)

/-- C8: `dump` ensures the `data` directory one level above the working
directory exists — created when absent, kept when present (conjunct 1) —
writes the JSON serialization of the whole store to the named file inside
that directory, replacing any previous content of that path (conjunct 2),
and the serialized value is a single JSON object whose top-level keys are
exactly the store keys, with the projected field maps as values
(conjunct 3). -/
theorem dump_spec (fs : FileSystem) (cwd : String) (store : Store)
    (filename : String) :
    (cwd ++ "/../data") ∈ (dump fs cwd store filename).dirs
    ∧ dictGet (dump fs cwd store filename).files
        (cwd ++ "/../data" ++ "/" ++ filename) = some (storeJson store)
    ∧ jsonTopKeys (storeJson store) = akeys store := by
  refine ⟨?_, ?_, ?_⟩
  · show (cwd ++ "/../data") ∈
      (if (cwd ++ "/../data") ∈ fs.dirs then fs
       else { fs with dirs := (cwd ++ "/../data") :: fs.dirs }).dirs
    by_cases h : (cwd ++ "/../data") ∈ fs.dirs
    · rw [if_pos h]
      exact h
    · rw [if_neg h]
      exact List.mem_cons_self _ _
  · exact dictGet_dictSet_self _ _ _
  · simp [storeJson, jsonTopKeys, akeys, List.map_map]

/-- C10: `load` with a non-list argument fails the `type(data) == list`
assertion and returns with the store untouched (conjunct 1); on a list
argument the assertion never fires and `load` is exactly the insertion loop
(conjunct 2). -/
theorem load_assert_guard (s : Store) (key : String) (tags : List String)
    (d : PyVal) (xs : List RawRecord) (hd : d.isList = false) :
    load s d key tags = (some (.assertionError "Expecting list as input"), s)
    ∧ load s (.vlist xs) key tags = loadRun s xs key tags := by
  constructor
  · cases d with
    | vlist ys => simp [PyVal.isList] at hd
    | vdict d0 => rfl
    | vstr s0 => rfl
    | vint n => rfl
  · rfl

/-- Witness for C10 on a string argument and a singleton list argument. -/
theorem load_assert_guard_witness :
    load [] (.vstr "oops") "store_key" ["name"] =
      (some (.assertionError "Expecting list as input"), [])
    ∧ load [] (.vlist [[("store_key", "k"), ("name", "n")]]) "store_key"
        ["name"] =
      loadRun [] [[("store_key", "k"), ("name", "n")]] "store_key" ["name"] :=
  load_assert_guard [] "store_key" ["name"] (.vstr "oops")
    [[("store_key", "k"), ("name", "n")]] rfl
